import Mathlib

/-!
# Verification of the Spotify_Details cache coordination layer

Shallow embedding of the cache subsystem of the repository:

* `src/unnamed/part_006` — disk/memory cache tiers, checksum envelope codec,
  lock manager, single-flight coordinator (`readDiskCache`, `writeDiskCache`,
  `evictIfNeeded`, `setMemoryCache`, `enforceMemoryLimit`, `acquireLock`,
  `singleFlight`);
* `src/app/api/spotify/playlists/route.ts` — freshness state machine
  (`getCacheState`) and the background refresh (`refreshPlaylistsCache`);
* `src/app/api/debug/cache/route.ts` — the debug metrics endpoint gate.

Modelling conventions:

* JavaScript values read from / written to JSON files are modelled by the
  inductive `Json` type; file contents are either a parsed `Json` value or
  `corrupt` (a byte string on which `JSON.parse` throws).
* The platform primitives `JSON.stringify` and the sha256 digest of
  `node:crypto` are not code of this repository; they are passed in as
  opaque function parameters `stringify : Json → String` and
  `hash : String → String` (the source composes them in `computeChecksum`).
* JavaScript `Map`s and plain-object records are modelled as association
  lists with unique keys (`keysNodup`); `Map.set` / property assignment is
  `setAssoc`, `Map.delete` / the `delete` operator is `eraseAssoc`.
* `Array.prototype.sort` with the numeric comparator
  `(a, b) => a.lastAccessAt - b.lastAccessAt` is modelled by a sort that is
  a permutation of its input and nondecreasing in `lastAccessAt`; no claim
  observes the tie-breaking order.
* Exceptions that the source catches locally are modelled by `Option`
  results (`none` = the catch branch ran); `Except` appears only where an
  operation can throw past an expression (the JavaScript `in` operator on a
  primitive).
* Millisecond clock values (`Date.now()`) are `Int`; ISO timestamp strings
  (`new Date().toISOString()`) are opaque `String` parameters.
* Metrics counters are carried in the state records only where a claim
  mentions them (the `evict` counter); the remaining counters are pure
  observability and are omitted.
-/

/-- A JSON value, the unit of everything this layer persists. -/
inductive Json where
  | null
  | bool (b : Bool)
  | num (n : Int)
  | str (s : String)
  | arr (elems : List Json)
  | obj (fields : List (String × Json))

/-- Association-list lookup: the value stored under key `k`, modelling
`map.get(k)` / `record[k]`. -/
def lookupAssoc (l : List (String × α)) (k : String) : Option α :=
  (l.find? (fun e => e.1 == k)).map (fun e => e.2)

/-- Association-list update modelling `map.set(k, v)` / `record[k] = v`:
replaces the entry in place when the key is present (JavaScript maps and
records keep the original insertion position), appends otherwise. -/
def setAssoc (l : List (String × α)) (k : String) (v : α) : List (String × α) :=
  if l.any (fun e => e.1 == k) then
    l.map (fun e => if e.1 == k then (k, v) else e)
  else
    l ++ [(k, v)]

/-- Association-list removal modelling `map.delete(k)` / `delete record[k]`. -/
def eraseAssoc (l : List (String × α)) (k : String) : List (String × α) :=
  l.filter (fun e => !(e.1 == k))

/-- Deleting every key of `ds` from `l`, one `delete` per loop iteration as
in the eviction loops of the source. -/
def removeKeys (l : List (String × α)) (ds : List (String × β)) : List (String × α) :=
  ds.foldl (fun acc d => eraseAssoc acc d.1) l

/-- The keys of an association list are pairwise distinct — an invariant of
every JavaScript `Map` and plain-object record. -/
def keysNodup (l : List (String × α)) : Prop :=
  (l.map Prod.fst).Nodup

/-- Field access on a JSON object, modelling `value.field` (which yields
`undefined`, here `none`, on non-objects and missing keys). -/
def jsGet (j : Json) (k : String) : Option Json :=
  match j with
  | .obj fields => lookupAssoc fields k
  | _ => none

/-- The JavaScript `in` operator, `key in value`: key membership on objects,
named-property membership (always false for these keys) on arrays, and a
thrown `TypeError` on primitives, modelled by `Except.error`. -/
def jsHasKey (j : Json) (k : String) : Except Unit Bool :=
  match j with
  | .obj fields => .ok (fields.any (fun e => e.1 == k))
  | .arr _ => .ok false
  | _ => .error ()

/-- JavaScript truthiness of a JSON value (`undefined` is handled by callers
defaulting a missing field to `Json.null`, which is falsy like `undefined`). -/
def truthy : Json → Bool
  | .null => false
  | .bool b => b
  | .num n => n != 0
  | .str s => s != ""
  | .arr _ => true
  | .obj _ => true

/-- Strict inequality `v !== s` between a JSON value and a string: two
strings compare by content, any non-string is strictly unequal to a string. -/
def jsStrictNeStr (v : Json) (s : String) : Bool :=
  match v with
  | .str t => t != s
  | _ => true

/-- `pat` is at the head of `s` (character-list view). -/
def leadsWith : List Char → List Char → Bool
  | [], _ => true
  | _ :: _, [] => false
  | a :: as, b :: bs => a == b && leadsWith as bs

/-- `pat` occurs somewhere in `s` (character-list view). -/
def hasSub (pat : List Char) : List Char → Bool
  | [] => leadsWith pat []
  | c :: rest => leadsWith pat (c :: rest) || hasSub pat rest

/-- `String.prototype.includes`: `msg.includes(pat)`. -/
def strIncludes (s pat : String) : Bool :=
  hasSub pat.toList s.toList

/-! ## Checksum envelope codec (`src/unnamed/part_006`) -/

/-- `CACHE_VERSION` of the cache module. -/
def CACHE_VERSION : Int := 1

/-- `computeChecksum(payload)`: sha256 of `JSON.stringify(payload)`.  The
two platform primitives are the parameters `hash` and `stringify`. -/
def computeChecksum (hash : String → String) (stringify : Json → String) (payload : Json) : String :=
  hash (stringify payload)

/-- A `CacheEnvelope<T>` as the call sites construct it (the optional
diagnostic fields travel inside `payload` at every call site relevant to
the claims). -/
structure CacheEnvelope where
  version : Int
  updatedAt : String
  checksum : String
  payload : Json

/-- The JSON object a `CacheEnvelope` serializes to. -/
def envelopeToJson (e : CacheEnvelope) : Json :=
  .obj [("version", .num e.version), ("updatedAt", .str e.updatedAt),
        ("checksum", .str e.checksum), ("payload", e.payload)]

/-! ## Disk tier (`src/unnamed/part_006`) -/

/-- One `DiskIndex` record: `{size, updatedAt, lastAccessAt}`. -/
structure IndexMeta where
  size : Nat
  updatedAt : String
  lastAccessAt : Int

/-- The disk index, a JSON record keyed by cache key. -/
abbrev DiskIndex := List (String × IndexMeta)

/-- Content of one on-disk cache file: a value `JSON.parse` accepts, or
bytes on which it throws. -/
inductive FileContent where
  | corrupt
  | json (j : Json)

/-- The observable state of the disk tier: the cache files, the index, and
the counters a claim mentions. -/
structure DiskState where
  files : List (String × FileContent)
  index : DiskIndex
  evictCount : Nat
  writeCount : Nat

/-- `sum(index[*].size)`. -/
def sumSizes (idx : DiskIndex) : Nat :=
  (idx.map (fun e => e.2.size)).sum

/-- Ordering by `lastAccessAt` under a projection; the comparator
`(a, b) => a[1].lastAccessAt - b[1].lastAccessAt`. -/
def leBy (f : α → Int) (a b : α) : Prop :=
  f a ≤ f b

instance (f : α → Int) : DecidableRel (leBy f) :=
  fun a b => Int.decLe (f a) (f b)

instance (f : α → Int) : IsTotal α (leBy f) :=
  ⟨fun a b => Int.le_total (f a) (f b)⟩

instance (f : α → Int) : IsTrans α (leBy f) :=
  ⟨fun _ _ _ h1 h2 => Int.le_trans h1 h2⟩

/-- `entries.sort((a, b) => a[1].lastAccessAt - b[1].lastAccessAt)`. -/
def sortByLastAccess (idx : DiskIndex) : DiskIndex :=
  List.insertionSort (leBy (fun e => e.2.lastAccessAt)) idx

/-- The body of the eviction loop of `evictIfNeeded`: walking the entries in
ascending `lastAccessAt` order, stop as soon as the running total is within
budget, otherwise delete the entry and subtract its size. Returns the
deleted entries in deletion order. -/
def evictLoop (maxDiskBytes : Nat) : Nat → DiskIndex → DiskIndex
  | _, [] => []
  | total, e :: rest =>
    if total ≤ maxDiskBytes then []
    else e :: evictLoop maxDiskBytes (total - e.2.size) rest

/-- The entries `evictIfNeeded` deletes: none when the total is within
budget, otherwise the prefix of the `lastAccessAt`-sorted entries the loop
consumes. -/
def evictDeleted (maxDiskBytes : Nat) (idx : DiskIndex) : DiskIndex :=
  if sumSizes idx ≤ maxDiskBytes then []
  else evictLoop maxDiskBytes (sumSizes idx) (sortByLastAccess idx)

/-- `evictIfNeeded(index)`: delete the chosen entries' files
(`fs.unlink`, failures ignored) and index records, incrementing the
`evict` counter once per removal, then persist the index. -/
def evictIfNeeded (maxDiskBytes : Nat) (st : DiskState) : DiskState :=
  { files := removeKeys st.files (evictDeleted maxDiskBytes st.index)
    index := removeKeys st.index (evictDeleted maxDiskBytes st.index)
    evictCount := st.evictCount + (evictDeleted maxDiskBytes st.index).length
    writeCount := st.writeCount }

/-- `readDiskCache` after a successful `JSON.parse`: the legacy-migration
branch (`"payload" in parsed` — throws on primitives, caught by the outer
`catch`), then the checksum gate
`if (envelope.checksum && envelope.checksum !== checksum) return null`. -/
def readDiskCacheJson (hash : String → String) (stringify : Json → String)
    (nowIso : String) (parsed : Json) : Option Json :=
  match jsHasKey parsed "payload" with
  | .error _ => none
  | .ok hasPayload =>
    let envelope :=
      if hasPayload then parsed
      else .obj [("version", .num CACHE_VERSION), ("updatedAt", .str nowIso),
                 ("checksum", .str (computeChecksum hash stringify parsed)),
                 ("payload", parsed)]
    let payloadVal := (jsGet envelope "payload").getD .null
    let checksum := computeChecksum hash stringify payloadVal
    let stored := (jsGet envelope "checksum").getD .null
    if truthy stored && jsStrictNeStr stored checksum then none
    else some envelope

/-- `readDiskCache(cacheKey)`: the whole body runs under `try`/`catch`
returning `null`; a missing file (`fs.readFile` throws) and undecodable
bytes (`JSON.parse` throws) land in the `catch`. The result is the envelope
as the JSON object the caller receives. -/
def readDiskCache (hash : String → String) (stringify : Json → String)
    (nowIso : String) : Option FileContent → Option Json
  | none => none
  | some .corrupt => none
  | some (.json parsed) => readDiskCacheJson hash stringify nowIso parsed

/-- The checksum `writeDiskCache` persists:
`envelope.checksum || computeChecksum(envelope.payload)` (the empty string
is the only falsy value a `checksum : string` field takes). -/
def writeChecksum (hash : String → String) (stringify : Json → String)
    (envelope : CacheEnvelope) : String :=
  if envelope.checksum = "" then computeChecksum hash stringify envelope.payload
  else envelope.checksum

/-- The JSON object `writeDiskCache` serializes to disk: the caller's
envelope with `version` forced to `CACHE_VERSION` and the checksum filled
in. -/
def writeFileJson (hash : String → String) (stringify : Json → String)
    (envelope : CacheEnvelope) : Json :=
  envelopeToJson
    { version := CACHE_VERSION
      updatedAt := envelope.updatedAt
      checksum := writeChecksum hash stringify envelope
      payload := envelope.payload }

/-- `writeDiskCache(cacheKey, envelope)` up to but excluding the eviction
pass: write the file atomically (temp file + rename), bump the `write`
counter, update the index entry from `fs.stat` (`size`) and `Date.now()`
(`lastAccessAt`), persist the index. -/
def writeDiskCachePre (hash : String → String) (stringify : Json → String)
    (now : Int) (st : DiskState) (cacheKey : String)
    (envelope : CacheEnvelope) : DiskState :=
  { files := setAssoc st.files cacheKey (.json (writeFileJson hash stringify envelope))
    index := setAssoc st.index cacheKey
      { size := (stringify (writeFileJson hash stringify envelope)).utf8ByteSize
        updatedAt := envelope.updatedAt
        lastAccessAt := now }
    evictCount := st.evictCount
    writeCount := st.writeCount + 1 }

/-- `writeDiskCache(cacheKey, envelope)`: the write phase followed by the
eviction pass. -/
def writeDiskCache (hash : String → String) (stringify : Json → String)
    (maxDiskBytes : Nat) (now : Int) (st : DiskState) (cacheKey : String)
    (envelope : CacheEnvelope) : DiskState :=
  evictIfNeeded maxDiskBytes (writeDiskCachePre hash stringify now st cacheKey envelope)

/-! ## Memory tier (`src/unnamed/part_006`) -/

/-- A `MemoryEntry<T>`. -/
structure MemoryEntry where
  payload : Json
  updatedAt : String
  expiresAt : Int
  lastAccessAt : Int
  state : Option String
  lastGoodAt : Option String
  refreshStartedAt : Option String
  errorCode : Option String
  retryAfterMs : Option Int

/-- The process-local memory cache `Map`. -/
abbrev MemoryCache := List (String × MemoryEntry)

/-- The optional `meta` argument of `setMemoryCache`. -/
structure MemoryMeta where
  updatedAt : Option String
  state : Option String
  lastGoodAt : Option String
  refreshStartedAt : Option String
  errorCode : Option String
  retryAfterMs : Option Int

/-- The `meta` argument with every field omitted. -/
def MemoryMeta.none : MemoryMeta :=
  ⟨Option.none, Option.none, Option.none, Option.none, Option.none, Option.none⟩

/-- `Array.from(memoryCache.entries()).sort((a, b) => a[1].lastAccessAt - b[1].lastAccessAt)`. -/
def sortByLastAccessMem (m : MemoryCache) : MemoryCache :=
  List.insertionSort (leBy (fun e => e.2.lastAccessAt)) m

/-- The entries `enforceMemoryLimit` deletes: nothing when the tier is at or
under `MAX_MEMORY_ITEMS`, otherwise the `size - MAX_MEMORY_ITEMS`
least-recently-accessed entries. -/
def memEvicted (maxItems : Nat) (m : MemoryCache) : MemoryCache :=
  if m.length ≤ maxItems then []
  else (sortByLastAccessMem m).take (m.length - maxItems)

/-- `enforceMemoryLimit()`: one `memoryCache.delete(items[i][0])` per chosen
entry. -/
def enforceMemoryLimit (maxItems : Nat) (m : MemoryCache) : MemoryCache :=
  removeKeys m (memEvicted maxItems m)

/-- The entry `setMemoryCache` constructs: `expiresAt = Date.now() + ttlMs`,
`lastAccessAt = Date.now()`, `updatedAt` defaulted to the current ISO time. -/
def mkMemoryEntry (now : Int) (nowIso : String) (payload : Json) (ttlMs : Int)
    (meta : MemoryMeta) : MemoryEntry :=
  { payload := payload
    updatedAt := meta.updatedAt.getD nowIso
    expiresAt := now + ttlMs
    lastAccessAt := now
    state := meta.state
    lastGoodAt := meta.lastGoodAt
    refreshStartedAt := meta.refreshStartedAt
    errorCode := meta.errorCode
    retryAfterMs := meta.retryAfterMs }

/-- `setMemoryCache(cacheKey, payload, ttlMs, meta)`: insert, then enforce
the item limit. -/
def setMemoryCache (now : Int) (nowIso : String) (maxItems : Nat)
    (m : MemoryCache) (cacheKey : String) (payload : Json) (ttlMs : Int)
    (meta : MemoryMeta) : MemoryCache :=
  enforceMemoryLimit maxItems
    (setAssoc m cacheKey (mkMemoryEntry now nowIso payload ttlMs meta))

/-! ## Lock manager (`src/unnamed/part_006`) -/

/-- A parsed lease record; fields a hand-written lease file may omit are
optional (the `acquireLock` read path only consults `expiresAt`). -/
structure LockLease where
  ownerId : Option String
  acquiredAt : Option Int
  expiresAt : Option Int

/-- The content of a `.lock` file: a parsed lease or bytes `JSON.parse`
rejects (the read is wrapped in `try`/`catch { /* ignore */ }`). -/
inductive LockFile where
  | corrupt
  | lease (l : LockLease)

/-- `acquireLock(cacheKey)`: read the lease file; when a parsed lease has
`expiresAt > now` return `false` leaving the file untouched; otherwise
(absent, unreadable, expired or malformed lease) write a fresh lease
`{ownerId: crypto.randomUUID(), acquiredAt: now, expiresAt: now + LOCK_LEASE_MS}`
and return `true`. The fresh UUID is the parameter `ownerId`. -/
def acquireLock (now leaseMs : Int) (ownerId : String)
    (file : Option LockFile) : Bool × Option LockFile :=
  let live :=
    match file with
    | some (.lease l) =>
      match l.expiresAt with
      | some e => decide (now < e)
      | Option.none => false
    | _ => false
  if live then (false, file)
  else (true, some (.lease
    { ownerId := some ownerId
      acquiredAt := some now
      expiresAt := some (now + leaseMs) }))

/-! ## Single-flight coordinator (`src/unnamed/part_006`) -/

/-- The single-flight registry: the `inflight` map from cache key to the
promise registered for it (promises are identified by allocation number),
plus the allocator for the next promise identity. -/
structure SingleFlightState where
  inflight : List (String × Nat)
  nextPromise : Nat

/-- One `singleFlight(cacheKey, fn)` call, an atomic step of the
single-threaded event loop: an in-flight promise is returned as is;
otherwise `fn` is invoked, its promise registered and returned. The result
is (new state, promise returned to the caller, whether `fn` was invoked). -/
def singleFlight (st : SingleFlightState) (cacheKey : String) :
    SingleFlightState × Nat × Bool :=
  match lookupAssoc st.inflight cacheKey with
  | some p => (st, p, false)
  | Option.none =>
    let p := st.nextPromise
    ({ inflight := setAssoc st.inflight cacheKey p, nextPromise := p + 1 },
     p, true)

/-- The `.finally(() => inflight.delete(cacheKey))` continuation: runs when
the registered promise settles, deleting the registration whatever the
outcome (`success` is ignored, as `finally` ignores it). -/
def settleFlight (st : SingleFlightState) (cacheKey : String)
    (_success : Bool) : SingleFlightState :=
  { st with inflight := eraseAssoc st.inflight cacheKey }

/-- `n` concurrent `singleFlight` calls for the same key, arriving while
none of them has settled; returns the final state and, per caller, the
promise received and whether that call invoked `fn`. -/
def singleFlightCalls (st : SingleFlightState) (cacheKey : String) :
    Nat → SingleFlightState × List (Nat × Bool)
  | 0 => (st, [])
  | n + 1 =>
    let step := singleFlight st cacheKey
    let rest := singleFlightCalls step.1 cacheKey n
    (rest.1, step.2 :: rest.2)

/-! ## Freshness state machine (`src/app/api/spotify/playlists/route.ts`) -/

/-- `getCacheState(ageMs)` with the two configured windows
(`PLAYLISTS_TTL_MS`, `PLAYLISTS_SWR_MS`) as parameters. -/
def getCacheState (ttlMs swrMs ageMs : Int) : String :=
  if ageMs < ttlMs then "ok"
  else if ageMs < ttlMs + swrMs then "stale"
  else "expired"

/-- Default `PLAYLISTS_TTL_MS`: 30 minutes. -/
def PLAYLISTS_TTL_MS : Int := 30 * 60 * 1000

/-- Default `PLAYLISTS_SWR_MS`: 6 hours. -/
def PLAYLISTS_SWR_MS : Int := 6 * 60 * 60 * 1000

/-! ## Background refresh (`src/app/api/spotify/playlists/route.ts`) -/

/-- The error-classification chain of `refreshPlaylistsCache`'s catch
branch, on `(error as Error).message`. -/
def classifyErrorCode (msg : String) : String :=
  if strIncludes msg "auth" then "auth_required"
  else if strIncludes msg "credentials" then "credentials_missing"
  else if strIncludes msg "429" then "rate_limit"
  else "error"

/-- The payload object the catch branch of `refreshPlaylistsCache` builds
and stores: an empty playlists listing carrying the error diagnostics. -/
def errorPayloadJson (nowIso msg errorCode : String) : Json :=
  .obj [("total", .num 0), ("playlists", .arr []),
        ("updatedAt", .str nowIso), ("cacheStatus", .str "stale"),
        ("syncStatus", .str "error"), ("state", .str "error"),
        ("errorCode", .str errorCode), ("errorMessage", .str msg)]

/-- Combined state the playlists refresh touches. -/
structure PlaylistsCacheState where
  memory : MemoryCache
  disk : DiskState

/-- The memory-tier `meta` argument of the refresh success path. -/
def refreshOkMeta (updatedAt : String) : MemoryMeta :=
  { MemoryMeta.none with
    updatedAt := some updatedAt
    state := some "ok"
    lastGoodAt := some updatedAt }

/-- The memory-tier `meta` argument of the refresh failure path. -/
def refreshErrorMeta (nowIso : String) : MemoryMeta :=
  { MemoryMeta.none with
    updatedAt := some nowIso
    state := some "error" }

/-- The string field `payload.updatedAt` (the build path always sets it). -/
def jsGetStr (j : Json) (k : String) : Option String :=
  match jsGet j k with
  | some (.str s) => some s
  | _ => Option.none

/-- `refreshPlaylistsCache(cacheKey, sessionId)`: the outcome of
`buildPlaylistsPayload` is the `build` argument (`.ok payload` or
`.error message`). On success the fresh payload is stored in both tiers
with `state: "ok"`. On failure the message is classified and a fresh
error payload — `total: 0, playlists: []` — is stored in both tiers with
`state: "error"`, replacing whatever the envelope held (the session-clearing
side effect of `auth_required` and the `refresh`/`error` counters are
omitted: no claim observes them). -/
def refreshPlaylistsCache (hash : String → String) (stringify : Json → String)
    (maxDiskBytes maxItems : Nat) (ttlMs now : Int) (nowIso : String)
    (cacheKey : String) (build : Except String Json)
    (st : PlaylistsCacheState) : PlaylistsCacheState :=
  match build with
  | .ok payload =>
    let updatedAt := (jsGetStr payload "updatedAt").getD nowIso
    let env : CacheEnvelope :=
      { version := CACHE_VERSION
        updatedAt := updatedAt
        checksum := ""
        payload := payload }
    { memory := setMemoryCache now nowIso maxItems st.memory cacheKey payload ttlMs
        (refreshOkMeta updatedAt)
      disk := writeDiskCache hash stringify maxDiskBytes now st.disk cacheKey env }
  | .error msg =>
    let errorCode := classifyErrorCode msg
    let payload := errorPayloadJson nowIso msg errorCode
    let env : CacheEnvelope :=
      { version := CACHE_VERSION
        updatedAt := nowIso
        checksum := ""
        payload := payload }
    { memory := setMemoryCache now nowIso maxItems st.memory cacheKey payload ttlMs
        (refreshErrorMeta nowIso)
      disk := writeDiskCache hash stringify maxDiskBytes now st.disk cacheKey env }

/-! ## Debug metrics endpoint (`src/app/api/debug/cache/route.ts`) -/

/-- The two possible responses of `GET /api/debug/cache`: the counters
snapshot, or the `404 Not found` gate response. -/
inductive DebugCacheResponse where
  | countersSnapshot
  | notFound

/-- The `GET` handler: `process.env.CACHE_DEBUG_TOKEN` is `token` (`none`
when unset); `url.searchParams.get("token")` is `provided` (`none` when the
query parameter is absent). `if (token)` skips the gate when the variable
is unset or the empty string; inside the gate `provided !== token` sends
`404`. -/
def debugCacheGET (token provided : Option String) : DebugCacheResponse :=
  match token with
  | some t =>
    if t = "" then .countersSnapshot
    else if provided = some t then .countersSnapshot
    else .notFound
  | Option.none => .countersSnapshot

/-! ## Concrete stand-ins for the platform primitives, used by witnesses -/

/-- A concrete digest function for witnesses (any deterministic function
models the sha256 parameter). -/
def hashId : String → String := fun s => s

/-- A concrete serializer for witnesses: distinguishes top-level scalars,
which is all the witnesses need from `JSON.stringify`. -/
def stringifyTop : Json → String
  | .null => "null"
  | .bool b => toString b
  | .num n => toString n
  | .str s => s
  | .arr _ => "arr"
  | .obj _ => "obj"

/-! ## Association-list lemmas -/

lemma lookupAssoc_setAssoc_self (l : List (String × α)) (k : String) (v : α) :
    lookupAssoc (setAssoc l k v) k = some v := by
  unfold setAssoc
  by_cases h : l.any (fun e => e.1 == k)
  · rw [if_pos h]
    induction l with
    | nil => simp at h
    | cons a t ih =>
      by_cases ha : a.1 == k
      · simp [lookupAssoc, List.find?, ha]
      · have ht : t.any (fun e => e.1 == k) := by
          simp only [List.any_cons, ha, Bool.false_or] at h
          exact h
        simp only [List.map_cons, if_neg ha]
        simp only [lookupAssoc, List.find?, ha] at ih ⊢
        exact ih ht
  · rw [if_neg h]
    induction l with
    | nil => simp [lookupAssoc]
    | cons a t ih =>
      have ha : (a.1 == k) = false := by
        by_contra hc
        exact h (by simp [List.any_cons, eq_true_of_ne_false hc])
      have ht : ¬ t.any (fun e => e.1 == k) := by
        intro hc
        exact h (by simp [List.any_cons, hc])
      simp only [List.cons_append, lookupAssoc, List.find?, ha] at ih ⊢
      exact ih ht

lemma keysNodup_setAssoc (l : List (String × α)) (k : String) (v : α)
    (h : keysNodup l) : keysNodup (setAssoc l k v) := by
  unfold setAssoc
  by_cases ha : l.any (fun e => e.1 == k)
  · rw [if_pos ha]
    have hkeys : (l.map (fun e => if e.1 == k then (k, v) else e)).map Prod.fst
        = l.map Prod.fst := by
      rw [List.map_map]
      apply List.map_congr_left
      intro e _
      by_cases he : e.1 == k
      · simp only [Function.comp, he, if_pos]
        exact (beq_iff_eq.mp he).symm
      · simp [Function.comp, he]
    unfold keysNodup
    rw [hkeys]
    exact h
  · rw [if_neg ha]
    unfold keysNodup
    rw [List.map_append, List.nodup_append]
    refine ⟨h, List.nodup_singleton k, ?_⟩
    intro x hx hx1
    simp only [List.map_cons, List.map_nil, List.mem_singleton] at hx1
    subst hx1
    obtain ⟨e, he, hek⟩ := List.mem_map.mp hx
    exact ha (List.any_eq_true.mpr ⟨e, he, beq_iff_eq.mpr hek⟩)

lemma lookupAssoc_eraseAssoc_self (l : List (String × α)) (k : String) :
    lookupAssoc (eraseAssoc l k) k = Option.none := by
  unfold lookupAssoc eraseAssoc
  have hnone : List.find? (fun e => e.1 == k) (List.filter (fun e => !(e.1 == k)) l)
      = Option.none := by
    rw [List.find?_eq_none]
    intro x hx
    have := (List.mem_filter.mp hx).2
    simpa using this
  rw [hnone]
  rfl

lemma removeKeys_nil (l : List (String × α)) : removeKeys l ([] : List (String × β)) = l :=
  rfl

lemma removeKeys_eq_filter (ds : List (String × β)) (l : List (String × α)) :
    removeKeys l ds = l.filter (fun e => !(ds.any (fun d => e.1 == d.1))) := by
  induction ds generalizing l with
  | nil => simp [removeKeys]
  | cons d ds ih =>
    have hstep : removeKeys l (d :: ds) = removeKeys (eraseAssoc l d.1) ds := rfl
    rw [hstep, ih, eraseAssoc, List.filter_filter]
    apply List.filter_congr
    intro e _
    simp [Bool.and_comm]

lemma lookupAssoc_removeKeys_of_mem (l : List (String × α)) (ds : List (String × β))
    (d : String × β) (hd : d ∈ ds) :
    lookupAssoc (removeKeys l ds) d.1 = Option.none := by
  rw [removeKeys_eq_filter]
  unfold lookupAssoc
  have hnone : List.find? (fun e => e.1 == d.1)
      (List.filter (fun e => !(ds.any (fun d => e.1 == d.1))) l) = Option.none := by
    rw [List.find?_eq_none]
    intro x hx
    have hpred := (List.mem_filter.mp hx).2
    simp only [Bool.not_eq_eq_eq_not, Bool.not_true, List.any_eq_false] at hpred
    intro hxk
    exact absurd (hpred d hd) (by simpa using hxk)
  rw [hnone]
  rfl

/-! ## Sorting and eviction lemmas -/

lemma evictLoop_eq_take (maxB : Nat) :
    ∀ (t : Nat) (l : DiskIndex),
      evictLoop maxB t l = l.take (evictLoop maxB t l).length := by
  intro t l
  induction l generalizing t with
  | nil => simp [evictLoop]
  | cons e rest ih =>
    by_cases h : t ≤ maxB
    · simp [evictLoop, h]
    · rw [evictLoop, if_neg h]
      simp only [List.length_cons, List.take_succ_cons]
      exact congrArg (e :: ·) (ih (t - e.2.size))

lemma evictLoop_sum (maxB : Nat) :
    ∀ (l : DiskIndex) (t : Nat), t = sumSizes l →
      sumSizes (l.drop (evictLoop maxB t l).length) ≤ maxB := by
  intro l
  induction l with
  | nil => intro t _; simp [evictLoop, sumSizes]
  | cons e rest ih =>
    intro t ht
    by_cases h : t ≤ maxB
    · rw [evictLoop, if_pos h]
      simpa [← ht] using h
    · rw [evictLoop, if_neg h]
      simp only [List.length_cons, List.drop_succ_cons]
      apply ih
      have : t = e.2.size + sumSizes rest := by
        simpa [sumSizes] using ht
      omega

lemma evictDeleted_pairwise (maxB : Nat) (idx : DiskIndex) :
    List.Pairwise (leBy (fun e => e.2.lastAccessAt)) (evictDeleted maxB idx) := by
  unfold evictDeleted
  by_cases h : sumSizes idx ≤ maxB
  · simp [h]
  · rw [if_neg h]
    have hsorted : List.Sorted (leBy (fun e : String × IndexMeta => e.2.lastAccessAt))
        (sortByLastAccess idx) :=
      List.sorted_insertionSort _ idx
    rw [evictLoop_eq_take]
    exact List.Pairwise.sublist (List.take_sublist _ _) hsorted

lemma sumSizes_perm {l l' : DiskIndex} (h : l.Perm l') : sumSizes l = sumSizes l' := by
  unfold sumSizes
  exact (h.map (fun e => e.2.size)).sum_eq

lemma filter_keys_append {α : Type} (u v : List (String × α))
    (hnd : ((u ++ v).map Prod.fst).Nodup) :
    (u ++ v).filter (fun e => !(u.any (fun d => e.1 == d.1))) = v := by
  rw [List.filter_append]
  have hdisj : ∀ a ∈ u, ∀ b ∈ v, a.1 ≠ b.1 := by
    intro a ha b hb hab
    rw [List.map_append, List.nodup_append] at hnd
    rcases hnd with ⟨_, _, hdj⟩
    exact hdj (List.mem_map.mpr ⟨a, ha, rfl⟩)
      (by rw [hab]; exact List.mem_map.mpr ⟨b, hb, rfl⟩)
  have htake : u.filter (fun e => !(u.any (fun d => e.1 == d.1))) = [] := by
    rw [List.filter_eq_nil_iff]
    intro a ha
    simp only [Bool.not_eq_eq_eq_not, Bool.not_true, List.any_eq_false]
    intro hcontra
    exact absurd (hcontra a ha) (by simp)
  have hdrop : v.filter (fun e => !(u.any (fun d => e.1 == d.1))) = v := by
    rw [List.filter_eq_self]
    intro a ha
    simp only [Bool.not_eq_eq_eq_not, Bool.not_true, List.any_eq_false]
    intro d hd
    have hne := hdisj d hd a ha
    simp only [beq_iff_eq]
    exact fun hh => hne hh.symm
  rw [htake, hdrop, List.nil_append]

lemma removeKeys_take_perm_drop {α : Type} (l s : List (String × α)) (n : Nat)
    (hperm : l.Perm s) (hnd : keysNodup l) :
    (removeKeys l (s.take n)).Perm (s.drop n) := by
  rw [removeKeys_eq_filter]
  have hfilter := hperm.filter (fun e => !((s.take n).any (fun d => e.1 == d.1)))
  have hnds : keysNodup s := (hperm.map Prod.fst).nodup hnd
  have hsplit : s.take n ++ s.drop n = s := List.take_append_drop n s
  have heq := filter_keys_append (s.take n) (s.drop n)
    (by rw [hsplit]; exact hnds)
  rw [hsplit] at heq
  exact heq ▸ hfilter
/-! ## Small helper lemmas for the claim theorems -/

lemma any_of_lookupAssoc_some {l : List (String × α)} {k : String} {v : α}
    (h : lookupAssoc l k = some v) : l.any (fun e => e.1 == k) = true := by
  unfold lookupAssoc at h
  cases hf : l.find? (fun e => e.1 == k) with
  | none => rw [hf] at h; cases h
  | some e =>
    have hp := List.find?_some hf
    exact List.any_eq_true.mpr ⟨e, List.mem_of_find?_eq_some hf, hp⟩

lemma singleFlightCalls_registered (k : String) (p : Nat) :
    ∀ (m : Nat) (st : SingleFlightState), lookupAssoc st.inflight k = some p →
      singleFlightCalls st k m = (st, List.replicate m (p, false)) := by
  intro m
  induction m with
  | zero => intro st _; rfl
  | succ n ih =>
    intro st h
    show (let step := singleFlight st k
          let rest := singleFlightCalls step.1 k n
          (rest.1, step.2 :: rest.2)) = _
    have hstep : singleFlight st k = (st, p, false) := by
      unfold singleFlight
      rw [h]
    rw [hstep]
    simp only []
    rw [ih st h]
    rfl

/-- C3: the freshness state machine `getCacheState` returns `ok` iff the age
is below `TTL_MS`, `stale` iff the age is in `[TTL_MS, TTL_MS + SWR_MS)`,
`expired` otherwise, with both boundaries exact (stated for a positive
stale-while-revalidate window, as configured). -/
theorem getCacheState_freshness (ttl swr age : Int) (hswr : 0 < swr) :
    (getCacheState ttl swr age = "ok" ↔ age < ttl)
    ∧ (getCacheState ttl swr age = "stale" ↔ ttl ≤ age ∧ age < ttl + swr)
    ∧ (getCacheState ttl swr age = "expired" ↔ ttl + swr ≤ age)
    ∧ getCacheState ttl swr ttl = "stale"
    ∧ getCacheState ttl swr (ttl + swr) = "expired" := by
  unfold getCacheState
  refine ⟨?_, ?_, ?_, ?_, ?_⟩
  · split_ifs with h1 h2 <;> simp_all <;> omega
  · split_ifs with h1 h2 <;> simp_all <;> omega
  · split_ifs with h1 h2 <;> simp_all <;> omega
  · rw [if_neg (by omega), if_pos (by omega)]
  · rw [if_neg (by omega), if_neg (by omega)]

/-- C3 witness: the defaults `TTL = 30 min`, `SWR = 6 h`; an age of exactly
`TTL` is `stale`. -/
theorem getCacheState_freshness_witness :
    getCacheState PLAYLISTS_TTL_MS PLAYLISTS_SWR_MS PLAYLISTS_TTL_MS = "stale" :=
  (getCacheState_freshness PLAYLISTS_TTL_MS PLAYLISTS_SWR_MS PLAYLISTS_TTL_MS
    (by decide)).2.2.2.1

/-- C9: when `CACHE_DEBUG_TOKEN` is configured (a nonempty secret) and the
caller omits the `token` query parameter or supplies a non-matching one,
the debug endpoint responds `404 Not found` and does not return the
counters snapshot. -/
theorem debugCacheGET_gate (t : String) (provided : Option String)
    (ht : t ≠ "") (hp : provided ≠ some t) :
    debugCacheGET (some t) provided = .notFound := by
  simp only [debugCacheGET]
  rw [if_neg ht, if_neg hp]

/-- C9 witness: secret `"s"`, token omitted. -/
theorem debugCacheGET_gate_witness :
    debugCacheGET (some "s") Option.none = .notFound :=
  debugCacheGET_gate "s" Option.none (by decide) (by simp)

/-- C8: `acquireLock` grants exactly when no live lease exists (file absent,
unreadable, no numeric `expiresAt`, or `expiresAt` not in the future); on
grant it writes a fresh lease with the new owner id expiring at
`now + LOCK_LEASE_MS`; on refusal the stored lease is untouched. -/
theorem acquireLock_lease (now leaseMs : Int) (oid : String) (file : Option LockFile) :
    ((acquireLock now leaseMs oid file).1 = true
       ↔ ¬ ∃ l e, file = some (.lease l) ∧ l.expiresAt = some e ∧ now < e)
    ∧ ((acquireLock now leaseMs oid file).1 = true →
        (acquireLock now leaseMs oid file).2
          = some (.lease ⟨some oid, some now, some (now + leaseMs)⟩))
    ∧ ((acquireLock now leaseMs oid file).1 = false →
        (acquireLock now leaseMs oid file).2 = file) := by
  match file with
  | Option.none => simp [acquireLock]
  | some .corrupt => simp [acquireLock]
  | some (.lease l) =>
    match hl : l.expiresAt with
    | Option.none => simp [acquireLock, hl]
    | some e =>
      by_cases he : now < e
      · simp [acquireLock, hl, he]
      · simp [acquireLock, hl, he]

/-- C8 witness: an expired lease (expiry 10, now 10) is granted to a new
owner; a live lease (expiry 11, now 10) is refused and left untouched. -/
theorem acquireLock_lease_witness :
    (acquireLock 10 100 "o2" (some (.lease ⟨some "o1", some 0, some 10⟩))).1 = true
    ∧ (acquireLock 10 100 "o2" (some (.lease ⟨some "o1", some 0, some 11⟩))).2
        = some (.lease ⟨some "o1", some 0, some 11⟩) := by
  constructor
  · exact (acquireLock_lease 10 100 "o2" (some (.lease ⟨some "o1", some 0, some 10⟩))).1.mpr
      (by rintro ⟨l, e, hl, he, hlt⟩; cases hl; cases he; omega)
  · exact (acquireLock_lease 10 100 "o2" (some (.lease ⟨some "o1", some 0, some 11⟩))).2.2
      (by rfl)

/-- C2: `N ≥ 1` concurrent `singleFlight` calls for the same key, arriving
while none has settled, invoke `fn` exactly once; every caller receives the
same in-flight promise; the promise stays registered until the settle
continuation removes the registration (whatever the outcome). -/
theorem singleFlight_at_most_once (st : SingleFlightState) (k : String) (n : Nat)
    (h0 : lookupAssoc st.inflight k = Option.none) (hn : 1 ≤ n) :
    ((singleFlightCalls st k n).2.filter (fun r => r.2)).length = 1
    ∧ (∀ r ∈ (singleFlightCalls st k n).2, r.1 = st.nextPromise)
    ∧ lookupAssoc (singleFlightCalls st k n).1.inflight k = some st.nextPromise
    ∧ ∀ success : Bool,
        lookupAssoc (settleFlight (singleFlightCalls st k n).1 k success).inflight k
          = Option.none := by
  obtain ⟨m, rfl⟩ : ∃ m, n = m + 1 := ⟨n - 1, by omega⟩
  have hstep : singleFlight st k =
      (⟨setAssoc st.inflight k st.nextPromise, st.nextPromise + 1⟩,
       st.nextPromise, true) := by
    unfold singleFlight
    rw [h0]
  have hreg : lookupAssoc (setAssoc st.inflight k st.nextPromise) k
      = some st.nextPromise := lookupAssoc_setAssoc_self _ _ _
  have hcalls : singleFlightCalls st k (m + 1)
      = (⟨setAssoc st.inflight k st.nextPromise, st.nextPromise + 1⟩,
         (st.nextPromise, true) :: List.replicate m (st.nextPromise, false)) := by
    show (let step := singleFlight st k
          let rest := singleFlightCalls step.1 k m
          (rest.1, step.2 :: rest.2)) = _
    rw [hstep]
    simp only []
    rw [singleFlightCalls_registered k st.nextPromise m _ hreg]
  rw [hcalls]
  refine ⟨?_, ?_, hreg, ?_⟩
  · simp only [List.filter_cons]
    have : (List.replicate m (st.nextPromise, false)).filter (fun r => r.2) = [] := by
      rw [List.filter_eq_nil_iff]
      intro a ha
      rcases (List.mem_replicate.mp ha) with ⟨_, rfl⟩
      simp
    simp [this]
  · intro r hr
    rcases List.mem_cons.mp hr with h | h
    · rw [h]
    · rcases (List.mem_replicate.mp h) with ⟨_, h2⟩
      rw [h2]
  · intro success
    exact lookupAssoc_eraseAssoc_self _ _

/-- C2 witness: three concurrent callers on a fresh registry: one `fn`
invocation, all receive promise 0, the registration is present afterwards
and gone after the settle continuation. -/
theorem singleFlight_at_most_once_witness :
    (((singleFlightCalls ⟨[], 0⟩ "k" 3).2.filter (fun r => r.2)).length = 1)
    ∧ lookupAssoc (settleFlight (singleFlightCalls ⟨[], 0⟩ "k" 3).1 "k" true).inflight "k"
        = Option.none := by
  refine ⟨(singleFlight_at_most_once ⟨[], 0⟩ "k" 3 rfl (by decide)).1, ?_⟩
  exact (singleFlight_at_most_once ⟨[], 0⟩ "k" 3 rfl (by decide)).2.2.2 true

/-- C5: `readDiskCache` never surfaces an exception: a missing/unreadable
file, undecodable bytes, and a stored checksum that mismatches the digest
recomputed over the stored payload (e.g. after the payload bytes of a
previously written envelope were corrupted into a different value) each
yield the absent result `none` — the `Option` result type is the whole
effect surface, so no exception reaches the caller. -/
theorem readDiskCache_soft_fails (hash : String → String) (stringify : Json → String)
    (nowIso : String) :
    readDiskCache hash stringify nowIso Option.none = Option.none
    ∧ readDiskCache hash stringify nowIso (some .corrupt) = Option.none
    ∧ ∀ (fields : List (String × Json)) (p : Json) (c : String),
        lookupAssoc fields "payload" = some p →
        lookupAssoc fields "checksum" = some (.str c) →
        c ≠ "" → c ≠ computeChecksum hash stringify p →
        readDiskCache hash stringify nowIso (some (.json (.obj fields))) = Option.none := by
  refine ⟨rfl, rfl, ?_⟩
  intro fields p c hp hc hne hmm
  have htr : truthy (.str c) = true := by
    simp [truthy, bne_iff_ne, hne]
  have hst : jsStrictNeStr (.str c) (computeChecksum hash stringify p) = true := by
    simp [jsStrictNeStr, bne_iff_ne, hmm]
  show readDiskCacheJson hash stringify nowIso (.obj fields) = Option.none
  unfold readDiskCacheJson
  simp only [jsHasKey, any_of_lookupAssoc_some hp, if_true, jsGet, hp, hc,
    Option.getD_some, htr, hst, Bool.and_self, if_pos]

/-- C5 witness: a record whose stored checksum `"bad"` differs from the
recomputed digest of its payload reads back as absent, as do a missing file
and a corrupt file. -/
theorem readDiskCache_soft_fails_witness :
    readDiskCache hashId stringifyTop "t" (some (.json
      (.obj [("payload", .num 1), ("checksum", .str "bad")]))) = Option.none := by
  exact (readDiskCache_soft_fails hashId stringifyTop "t").2.2
    [("payload", .num 1), ("checksum", .str "bad")] (.num 1) "bad"
    rfl rfl (by decide) (by decide)

/-- C10: for a stored record that parses as a JSON object and has a
`payload` key, a falsy `checksum` field (absent or empty — or any other
falsy JSON value) makes `readDiskCache` return the parsed record as is, its
payload included, with no integrity verification (the result does not
depend on the digest); and the checksum-synthesis migration shim runs
exactly when the record has no `payload` key at all. -/
theorem readDiskCache_falsy_checksum (hash : String → String) (stringify : Json → String)
    (nowIso : String) (fields : List (String × Json)) :
    ((fields.any (fun e => e.1 == "payload")) = true →
       truthy ((lookupAssoc fields "checksum").getD .null) = false →
       readDiskCache hash stringify nowIso (some (.json (.obj fields)))
         = some (.obj fields))
    ∧ ((fields.any (fun e => e.1 == "payload")) = false →
       readDiskCache hash stringify nowIso (some (.json (.obj fields)))
         = some (.obj [("version", .num CACHE_VERSION), ("updatedAt", .str nowIso),
                       ("checksum", .str (computeChecksum hash stringify (.obj fields))),
                       ("payload", .obj fields)])) := by
  constructor
  · intro hpayload hfalsy
    show readDiskCacheJson hash stringify nowIso (.obj fields) = _
    unfold readDiskCacheJson
    simp only [jsHasKey, hpayload, if_true, jsGet, hfalsy, Bool.false_and,
      Bool.false_eq_true, if_false]
  · intro hnone
    show readDiskCacheJson hash stringify nowIso (.obj fields) = _
    unfold readDiskCacheJson
    simp only [jsHasKey, hnone]
    simp only [Bool.false_eq_true, if_false, jsGet, lookupAssoc, List.find?]
    simp only [show (("version" : String) == "payload") = false from by decide,
      show (("updatedAt" : String) == "payload") = false from by decide,
      show (("checksum" : String) == "payload") = false from by decide,
      show (("payload" : String) == "payload") = true from by decide,
      show (("version" : String) == "checksum") = false from by decide,
      show (("updatedAt" : String) == "checksum") = false from by decide,
      show (("checksum" : String) == "checksum") = true from by decide]
    simp [truthy, jsStrictNeStr]

/-- C10 witness: a record with a payload and an empty checksum is returned
unverified; a legacy record with no payload key is wrapped by the migration
shim. -/
theorem readDiskCache_falsy_checksum_witness :
    readDiskCache hashId stringifyTop "t" (some (.json
      (.obj [("payload", .num 7), ("checksum", .str "")])))
      = some (.obj [("payload", .num 7), ("checksum", .str "")])
    ∧ readDiskCache hashId stringifyTop "t" (some (.json (.obj [("legacy", .num 7)])))
      = some (.obj [("version", .num CACHE_VERSION), ("updatedAt", .str "t"),
                    ("checksum", .str (computeChecksum hashId stringifyTop (.obj [("legacy", .num 7)]))),
                    ("payload", .obj [("legacy", .num 7)])]) := by
  constructor
  · exact (readDiskCache_falsy_checksum hashId stringifyTop "t"
      [("payload", .num 7), ("checksum", .str "")]).1 (by decide) (by decide)
  · exact (readDiskCache_falsy_checksum hashId stringifyTop "t"
      [("legacy", .num 7)]).2 (by decide)

/-- C4 (amended): writing an envelope (checksum left empty, as every call
site does) and reading the same key back returns the stored envelope with
the identical payload — provided the write's eviction pass removes nothing,
i.e. the post-write index total is within `MAX_DISK_BYTES`; an over-budget
write is evicted immediately and reads back absent. -/
theorem writeDiskCache_roundtrip (hash : String → String) (stringify : Json → String)
    (maxB : Nat) (now : Int) (st : DiskState) (k : String) (u nowIso2 : String)
    (p : Json)
    (hbudget : sumSizes ((writeDiskCachePre hash stringify now st k
        ⟨CACHE_VERSION, u, "", p⟩).index) ≤ maxB) :
    readDiskCache hash stringify nowIso2
        (lookupAssoc (writeDiskCache hash stringify maxB now st k
          ⟨CACHE_VERSION, u, "", p⟩).files k)
      = some (envelopeToJson ⟨CACHE_VERSION, u, computeChecksum hash stringify p, p⟩)
    ∧ jsGet (envelopeToJson ⟨CACHE_VERSION, u, computeChecksum hash stringify p, p⟩)
        "payload" = some p := by
  have hdel : evictDeleted maxB
      (writeDiskCachePre hash stringify now st k ⟨CACHE_VERSION, u, "", p⟩).index = [] := by
    unfold evictDeleted
    rw [if_pos hbudget]
  have hfiles : (writeDiskCache hash stringify maxB now st k
      ⟨CACHE_VERSION, u, "", p⟩).files
      = (writeDiskCachePre hash stringify now st k ⟨CACHE_VERSION, u, "", p⟩).files := by
    unfold writeDiskCache evictIfNeeded
    rw [hdel]
    rfl
  have hwf : writeFileJson hash stringify ⟨CACHE_VERSION, u, "", p⟩
      = envelopeToJson ⟨CACHE_VERSION, u, computeChecksum hash stringify p, p⟩ := by
    unfold writeFileJson writeChecksum
    rfl
  have hlk : lookupAssoc (writeDiskCachePre hash stringify now st k
      ⟨CACHE_VERSION, u, "", p⟩).files k
      = some (.json (writeFileJson hash stringify ⟨CACHE_VERSION, u, "", p⟩)) := by
    show lookupAssoc (setAssoc st.files k
      (.json (writeFileJson hash stringify ⟨CACHE_VERSION, u, "", p⟩))) k = _
    exact lookupAssoc_setAssoc_self _ _ _
  rw [hfiles, hlk, hwf]
  constructor
  · show readDiskCacheJson hash stringify nowIso2
      (envelopeToJson ⟨CACHE_VERSION, u, computeChecksum hash stringify p, p⟩) = _
    unfold readDiskCacheJson envelopeToJson jsHasKey
    simp only [List.any_cons, List.any_nil,
      show (("version" : String) == "payload") = false from by decide,
      show (("updatedAt" : String) == "payload") = false from by decide,
      show (("checksum" : String) == "payload") = false from by decide,
      show (("payload" : String) == "payload") = true from by decide,
      Bool.false_or, Bool.or_false, Bool.or_true, if_true, jsGet, lookupAssoc,
      List.find?]
    simp only [
      show (("version" : String) == "checksum") = false from by decide,
      show (("updatedAt" : String) == "checksum") = false from by decide,
      show (("checksum" : String) == "checksum") = true from by decide]
    simp [truthy, jsStrictNeStr]
  · simp only [envelopeToJson, jsGet, lookupAssoc, List.find?,
      show (("version" : String) == "payload") = false from by decide,
      show (("updatedAt" : String) == "payload") = false from by decide,
      show (("checksum" : String) == "payload") = false from by decide,
      show (("payload" : String) == "payload") = true from by decide]
    rfl

/-- C4 witness: a small payload within a budget of 1000 bytes round-trips:
the read returns the stored envelope and its payload field. -/
theorem writeDiskCache_roundtrip_witness :
    readDiskCache hashId stringifyTop "t2"
        (lookupAssoc (writeDiskCache hashId stringifyTop 1000 7 ⟨[], [], 0, 0⟩ "k"
          ⟨CACHE_VERSION, "t", "", .num 3⟩).files "k")
      = some (envelopeToJson ⟨CACHE_VERSION, "t",
          computeChecksum hashId stringifyTop (.num 3), .num 3⟩) :=
  (writeDiskCache_roundtrip hashId stringifyTop 1000 7 ⟨[], [], 0, 0⟩ "k" "t" "t2"
    (.num 3) (by decide)).1

/-- C4 counterexample: with the configured byte budget exceeded by the
written envelope itself (budget 0 here), the eviction pass that
`writeDiskCache` runs deletes the just-written file, and `readDiskCache`
returns absent — the round-trip claim fails as stated (it is not true for
every payload and every disk state). -/
theorem writeDiskCache_roundtrip_counterexample :
    readDiskCache hashId stringifyTop "t2"
        (lookupAssoc (writeDiskCache hashId stringifyTop 0 7 ⟨[], [], 0, 0⟩ "k"
          ⟨CACHE_VERSION, "t", "", .num 3⟩).files "k")
      = Option.none := by
  rfl

/-- C6: after the eviction pass of any `writeDiskCache` call, the summed
`size` of the remaining index entries is within `MAX_DISK_BYTES` (trivially
so when everything was evicted); the evicted entries are removed in
ascending `lastAccessAt` order; each removal increments the `evict` counter
and deletes both the entry's file and its index record. Stated for an index
with unique keys, the invariant of every JavaScript record. -/
theorem writeDiskCache_eviction_invariant (hash : String → String)
    (stringify : Json → String) (maxB : Nat) (now : Int) (st : DiskState)
    (k : String) (env : CacheEnvelope) (hnd : keysNodup st.index) :
    sumSizes (writeDiskCache hash stringify maxB now st k env).index ≤ maxB
    ∧ List.Pairwise (leBy (fun e => e.2.lastAccessAt))
        (evictDeleted maxB (writeDiskCachePre hash stringify now st k env).index)
    ∧ (writeDiskCache hash stringify maxB now st k env).evictCount
        = st.evictCount
          + (evictDeleted maxB (writeDiskCachePre hash stringify now st k env).index).length
    ∧ ∀ d ∈ evictDeleted maxB (writeDiskCachePre hash stringify now st k env).index,
        lookupAssoc (writeDiskCache hash stringify maxB now st k env).index d.1
          = Option.none
        ∧ lookupAssoc (writeDiskCache hash stringify maxB now st k env).files d.1
          = Option.none := by
  have hnd2 : keysNodup (writeDiskCachePre hash stringify now st k env).index :=
    keysNodup_setAssoc st.index k _ hnd
  refine ⟨?_, evictDeleted_pairwise maxB _, rfl, ?_⟩
  · show sumSizes (removeKeys (writeDiskCachePre hash stringify now st k env).index
      (evictDeleted maxB (writeDiskCachePre hash stringify now st k env).index)) ≤ maxB
    by_cases hle : sumSizes (writeDiskCachePre hash stringify now st k env).index ≤ maxB
    · have hdel : evictDeleted maxB
          (writeDiskCachePre hash stringify now st k env).index = [] := by
        unfold evictDeleted
        rw [if_pos hle]
      rw [hdel, removeKeys_nil]
      exact hle
    · have hdel : evictDeleted maxB (writeDiskCachePre hash stringify now st k env).index
          = evictLoop maxB
              (sumSizes (writeDiskCachePre hash stringify now st k env).index)
              (sortByLastAccess (writeDiskCachePre hash stringify now st k env).index) := by
        unfold evictDeleted
        rw [if_neg hle]
      have hperm : (writeDiskCachePre hash stringify now st k env).index.Perm
          (sortByLastAccess (writeDiskCachePre hash stringify now st k env).index) :=
        (List.perm_insertionSort _ _).symm
      have hsum : sumSizes (writeDiskCachePre hash stringify now st k env).index
          = sumSizes (sortByLastAccess (writeDiskCachePre hash stringify now st k env).index) :=
        sumSizes_perm hperm
      rw [hdel, hsum, evictLoop_eq_take]
      have hrk := removeKeys_take_perm_drop
        (writeDiskCachePre hash stringify now st k env).index
        (sortByLastAccess (writeDiskCachePre hash stringify now st k env).index)
        ((evictLoop maxB
          (sumSizes (sortByLastAccess (writeDiskCachePre hash stringify now st k env).index))
          (sortByLastAccess (writeDiskCachePre hash stringify now st k env).index)).length)
        hperm hnd2
      rw [sumSizes_perm hrk]
      exact evictLoop_sum maxB _ _ rfl
  · intro d hd
    exact ⟨lookupAssoc_removeKeys_of_mem _ _ d hd, lookupAssoc_removeKeys_of_mem _ _ d hd⟩

/-- C6 witness: two old entries (sizes 6 and 5) and a fresh write of size 3
against a budget of 8: the two least-recently-accessed entries are evicted
in ascending `lastAccessAt` order, the counter advances by 2, their file
and index records are gone, and the remaining total is within budget. -/
theorem writeDiskCache_eviction_invariant_witness :
    sumSizes (writeDiskCache hashId stringifyTop 8 9
        ⟨[("a", .json .null), ("b", .json .null)],
         [("a", ⟨6, "t0", 1⟩), ("b", ⟨5, "t0", 2⟩)], 0, 0⟩ "c"
        ⟨CACHE_VERSION, "t1", "", .num 1⟩).index ≤ 8
    ∧ (writeDiskCache hashId stringifyTop 8 9
        ⟨[("a", .json .null), ("b", .json .null)],
         [("a", ⟨6, "t0", 1⟩), ("b", ⟨5, "t0", 2⟩)], 0, 0⟩ "c"
        ⟨CACHE_VERSION, "t1", "", .num 1⟩).evictCount
      = 0 + (evictDeleted 8 (writeDiskCachePre hashId stringifyTop 9
          ⟨[("a", .json .null), ("b", .json .null)],
           [("a", ⟨6, "t0", 1⟩), ("b", ⟨5, "t0", 2⟩)], 0, 0⟩ "c"
          ⟨CACHE_VERSION, "t1", "", .num 1⟩).index).length := by
  refine ⟨(writeDiskCache_eviction_invariant hashId stringifyTop 8 9
    ⟨[("a", .json .null), ("b", .json .null)],
     [("a", ⟨6, "t0", 1⟩), ("b", ⟨5, "t0", 2⟩)], 0, 0⟩ "c"
    ⟨CACHE_VERSION, "t1", "", .num 1⟩ (by unfold keysNodup; decide)).1, ?_⟩
  exact (writeDiskCache_eviction_invariant hashId stringifyTop 8 9
    ⟨[("a", .json .null), ("b", .json .null)],
     [("a", ⟨6, "t0", 1⟩), ("b", ⟨5, "t0", 2⟩)], 0, 0⟩ "c"
    ⟨CACHE_VERSION, "t1", "", .num 1⟩ (by unfold keysNodup; decide)).2.2.1

/-- C7: `setMemoryCache` stores the new entry with
`expiresAt = now + ttlMs`; after the insertion `enforceMemoryLimit` leaves
at most `MAX_MEMORY_ITEMS` entries, removing the least-recently-accessed
entries (ascending `lastAccessAt`) first. Stated for a memory map with
unique keys, the invariant of every JavaScript `Map`. -/
theorem setMemoryCache_spec (now ttl : Int) (nowIso : String) (maxItems : Nat)
    (m : MemoryCache) (k : String) (p : Json) (meta : MemoryMeta)
    (hnd : keysNodup m) :
    lookupAssoc (setAssoc m k (mkMemoryEntry now nowIso p ttl meta)) k
        = some (mkMemoryEntry now nowIso p ttl meta)
    ∧ (mkMemoryEntry now nowIso p ttl meta).expiresAt = now + ttl
    ∧ (setMemoryCache now nowIso maxItems m k p ttl meta).length ≤ maxItems
    ∧ List.Pairwise (leBy (fun e => e.2.lastAccessAt))
        (memEvicted maxItems (setAssoc m k (mkMemoryEntry now nowIso p ttl meta))) := by
  have hnd2 : keysNodup (setAssoc m k (mkMemoryEntry now nowIso p ttl meta)) :=
    keysNodup_setAssoc m k _ hnd
  refine ⟨lookupAssoc_setAssoc_self _ _ _, rfl, ?_, ?_⟩
  · show (enforceMemoryLimit maxItems
      (setAssoc m k (mkMemoryEntry now nowIso p ttl meta))).length ≤ maxItems
    unfold enforceMemoryLimit memEvicted
    by_cases hle : (setAssoc m k (mkMemoryEntry now nowIso p ttl meta)).length ≤ maxItems
    · rw [if_pos hle, removeKeys_nil]
      exact hle
    · rw [if_neg hle]
      have hperm : (setAssoc m k (mkMemoryEntry now nowIso p ttl meta)).Perm
          (sortByLastAccessMem (setAssoc m k (mkMemoryEntry now nowIso p ttl meta))) :=
        (List.perm_insertionSort _ _).symm
      have hrk := removeKeys_take_perm_drop
        (setAssoc m k (mkMemoryEntry now nowIso p ttl meta))
        (sortByLastAccessMem (setAssoc m k (mkMemoryEntry now nowIso p ttl meta)))
        ((setAssoc m k (mkMemoryEntry now nowIso p ttl meta)).length - maxItems)
        hperm hnd2
      rw [hrk.length_eq, List.length_drop, ← hperm.length_eq]
      omega
  · unfold memEvicted
    by_cases hle : (setAssoc m k (mkMemoryEntry now nowIso p ttl meta)).length ≤ maxItems
    · rw [if_pos hle]
      exact List.Pairwise.nil
    · rw [if_neg hle]
      exact List.Pairwise.sublist (List.take_sublist _ _)
        (List.sorted_insertionSort _ _)

/-- C7 witness: inserting a third entry into a two-entry map with
`MAX_MEMORY_ITEMS = 2`: the new entry carries `expiresAt = 9 + 100`, the
tier shrinks back to 2 entries, and the eviction took the oldest
`lastAccessAt` first. -/
theorem setMemoryCache_spec_witness :
    (mkMemoryEntry 9 "t" (.num 1) 100 MemoryMeta.none).expiresAt = 9 + 100
    ∧ (setMemoryCache 9 "t" 2
        [("a", ⟨.null, "t0", 50, 1, Option.none, Option.none, Option.none,
          Option.none, Option.none⟩),
         ("b", ⟨.null, "t0", 50, 2, Option.none, Option.none, Option.none,
          Option.none, Option.none⟩)] "c" (.num 1) 100 MemoryMeta.none).length ≤ 2 := by
  refine ⟨(setMemoryCache_spec 9 100 "t" 2
    [("a", ⟨.null, "t0", 50, 1, Option.none, Option.none, Option.none,
      Option.none, Option.none⟩),
     ("b", ⟨.null, "t0", 50, 2, Option.none, Option.none, Option.none,
      Option.none, Option.none⟩)] "c" (.num 1) MemoryMeta.none (by unfold keysNodup; decide)).2.1, ?_⟩
  exact (setMemoryCache_spec 9 100 "t" 2
    [("a", ⟨.null, "t0", 50, 1, Option.none, Option.none, Option.none,
      Option.none, Option.none⟩),
     ("b", ⟨.null, "t0", 50, 2, Option.none, Option.none, Option.none,
      Option.none, Option.none⟩)] "c" (.num 1) MemoryMeta.none (by unfold keysNodup; decide)).2.2.1

lemma classifyErrorCode_rate_limit (msg : String)
    (hauth : strIncludes msg "auth" = false)
    (hcred : strIncludes msg "credentials" = false)
    (h429 : strIncludes msg "429" = true) :
    classifyErrorCode msg = "rate_limit" := by
  simp [classifyErrorCode, hauth, hcred, h429]

/-- C1 (amended): on every rebuild failure the refresh stores in both
tiers — replacing the previous payload rather than preserving it — a fresh
empty error payload (`total: 0`, `playlists: []`) whose `state` is
`"error"` and whose `errorCode` is the classification of the failure
message, always one of `auth_required`, `credentials_missing`,
`rate_limit`, `error`, with `rate_limit` chosen when the message marks an
upstream 429 (contains `429` and not `auth`/`credentials`); the memory
entry carries `state = "error"` too. Stated for a call whose stores stay
within the memory-item and disk-byte budgets, so neither eviction pass
interferes. -/
theorem refreshPlaylistsCache_failure_spec (hash : String → String)
    (stringify : Json → String) (maxB maxItems : Nat) (ttl now : Int)
    (nowIso k msg : String) (st : PlaylistsCacheState)
    (hmem : (setAssoc st.memory k (mkMemoryEntry now nowIso
        (errorPayloadJson nowIso msg (classifyErrorCode msg)) ttl
        (refreshErrorMeta nowIso))).length ≤ maxItems)
    (hdisk : sumSizes ((writeDiskCachePre hash stringify now st.disk k
        ⟨CACHE_VERSION, nowIso, "",
         errorPayloadJson nowIso msg (classifyErrorCode msg)⟩).index)
        ≤ maxB) :
    lookupAssoc (refreshPlaylistsCache hash stringify maxB maxItems ttl now nowIso k
        (.error msg) st).memory k
      = some (mkMemoryEntry now nowIso
          (errorPayloadJson nowIso msg (classifyErrorCode msg)) ttl
          (refreshErrorMeta nowIso))
    ∧ (mkMemoryEntry now nowIso (errorPayloadJson nowIso msg (classifyErrorCode msg))
        ttl (refreshErrorMeta nowIso)).state = some "error"
    ∧ lookupAssoc (refreshPlaylistsCache hash stringify maxB maxItems ttl now nowIso k
        (.error msg) st).disk.files k
      = some (.json (envelopeToJson ⟨CACHE_VERSION, nowIso,
          computeChecksum hash stringify
            (errorPayloadJson nowIso msg (classifyErrorCode msg)),
          errorPayloadJson nowIso msg (classifyErrorCode msg)⟩))
    ∧ jsGet (errorPayloadJson nowIso msg (classifyErrorCode msg)) "state"
        = some (.str "error")
    ∧ jsGet (errorPayloadJson nowIso msg (classifyErrorCode msg)) "errorCode"
        = some (.str (classifyErrorCode msg))
    ∧ (classifyErrorCode msg = "auth_required"
        ∨ classifyErrorCode msg = "credentials_missing"
        ∨ classifyErrorCode msg = "rate_limit"
        ∨ classifyErrorCode msg = "error")
    ∧ (strIncludes msg "auth" = false → strIncludes msg "credentials" = false →
        strIncludes msg "429" = true → classifyErrorCode msg = "rate_limit") := by
  have hrefresh : refreshPlaylistsCache hash stringify maxB maxItems ttl now nowIso k
      (.error msg) st
      = { memory := setMemoryCache now nowIso maxItems st.memory k
            (errorPayloadJson nowIso msg (classifyErrorCode msg)) ttl
            (refreshErrorMeta nowIso)
          disk := writeDiskCache hash stringify maxB now st.disk k
            ⟨CACHE_VERSION, nowIso, "",
             errorPayloadJson nowIso msg (classifyErrorCode msg)⟩ } := by
    simp only [refreshPlaylistsCache]
  rw [hrefresh]
  refine ⟨?_, rfl, ?_, rfl, rfl, ?_, ?_⟩
  · show lookupAssoc (enforceMemoryLimit maxItems (setAssoc st.memory k
      (mkMemoryEntry now nowIso (errorPayloadJson nowIso msg (classifyErrorCode msg))
        ttl (refreshErrorMeta nowIso)))) k = _
    unfold enforceMemoryLimit memEvicted
    rw [if_pos hmem, removeKeys_nil]
    exact lookupAssoc_setAssoc_self _ _ _
  · have hdel : evictDeleted maxB ((writeDiskCachePre hash stringify now st.disk k
        ⟨CACHE_VERSION, nowIso, "",
         errorPayloadJson nowIso msg (classifyErrorCode msg)⟩).index)
        = [] := by
      unfold evictDeleted
      rw [if_pos hdisk]
    show lookupAssoc (removeKeys (setAssoc st.disk.files k
      (.json (writeFileJson hash stringify
        ⟨CACHE_VERSION, nowIso, "",
         errorPayloadJson nowIso msg (classifyErrorCode msg)⟩)))
      (evictDeleted maxB (writeDiskCachePre hash stringify now st.disk k
        ⟨CACHE_VERSION, nowIso, "",
         errorPayloadJson nowIso msg (classifyErrorCode msg)⟩).index)) k
      = _
    rw [hdel, removeKeys_nil]
    exact lookupAssoc_setAssoc_self _ _ _
  · unfold classifyErrorCode
    split_ifs <;> simp
  · intro hauth hcred h429
    exact classifyErrorCode_rate_limit msg hauth hcred h429

/-- C1 witness: a concrete upstream-429 failure message against empty
tiers and large budgets: the stored envelope carries the error payload
under the classified code, and the classification is `rate_limit`. -/
theorem refreshPlaylistsCache_failure_spec_witness :
    lookupAssoc (refreshPlaylistsCache hashId stringifyTop 1000 50 100 7 "t1" "k"
        (.error "Spotify playlists fetch failed (429).") ⟨[], ⟨[], [], 0, 0⟩⟩).disk.files "k"
      = some (.json (envelopeToJson ⟨CACHE_VERSION, "t1",
          computeChecksum hashId stringifyTop (errorPayloadJson "t1"
            "Spotify playlists fetch failed (429)."
            (classifyErrorCode "Spotify playlists fetch failed (429).")),
          errorPayloadJson "t1" "Spotify playlists fetch failed (429)."
            (classifyErrorCode "Spotify playlists fetch failed (429).")⟩))
    ∧ classifyErrorCode "Spotify playlists fetch failed (429)." = "rate_limit" := by
  refine ⟨(refreshPlaylistsCache_failure_spec hashId stringifyTop 1000 50 100 7 "t1" "k"
    "Spotify playlists fetch failed (429)." ⟨[], ⟨[], [], 0, 0⟩⟩
    (by decide) (by decide)).2.2.1, ?_⟩
  exact (refreshPlaylistsCache_failure_spec hashId stringifyTop 1000 50 100 7 "t1" "k"
    "Spotify playlists fetch failed (429)." ⟨[], ⟨[], [], 0, 0⟩⟩
    (by decide) (by decide)).2.2.2.2.2.2 (by decide) (by decide) (by decide)

/-- C1 counterexample: a previously written good payload
`{"total": 2}` under key `"k"`; the rebuild throws the upstream-429 message
and the refresh completes — afterwards the stored envelope's payload is the
fresh empty error payload, not the previous payload: the previous payload
is NOT preserved byte-identical, refuting the claim as stated. -/
theorem refreshPlaylistsCache_failure_counterexample :
    lookupAssoc (refreshPlaylistsCache hashId stringifyTop 1000 50 100 7 "t1" "k"
        (.error "Spotify playlists fetch failed (429).")
        ⟨[], ⟨[("k", .json (envelopeToJson ⟨1, "t0", "c0", .obj [("total", .num 2)]⟩))],
             [("k", ⟨5, "t0", 0⟩)], 0, 0⟩⟩).disk.files "k"
      = some (.json (envelopeToJson ⟨1, "t1",
          computeChecksum hashId stringifyTop (errorPayloadJson "t1"
            "Spotify playlists fetch failed (429)." "rate_limit"),
          errorPayloadJson "t1" "Spotify playlists fetch failed (429)." "rate_limit"⟩))
    ∧ errorPayloadJson "t1" "Spotify playlists fetch failed (429)." "rate_limit"
      ≠ .obj [("total", .num 2)] := by
  constructor
  · rfl
  · intro h
    have h2 := congrArg (fun j => jsGet j "state") h
    simp [errorPayloadJson, jsGet, lookupAssoc, List.find?] at h2
